import Mathlib

/-!
Shallow embedding of the core of `src/index.tsx` (AT-proto firehose viewer):
the SQLite-backed post store (`posts` table with `uri TEXT PRIMARY KEY`),
the ingest batch buffer (`addPost` / `flushPosts`), the periodic eviction
(`cleanupOldPosts`), the filtered query path (`queryPosts`, which uses
SQLite `LIKE` with pattern `%filter%`), the tab registry and the
`POST /filter` handler, and the per-connection SSE listeners.

The store is modelled as a `List Post` of rows in insertion order.  Row
timestamps are the epoch-millisecond integers actually stored in the
`timestamp INTEGER` column.  SQLite `ORDER BY timestamp DESC` is modelled
by a sort that is descending on `timestamp` (tie order is unspecified by
SQLite; the model fixes one).  SQLite `LIKE` is modelled faithfully:
`%` matches any sequence of characters, `_` matches exactly one character,
and ordinary characters compare after ASCII case folding (SQLite LIKE is
case-insensitive for the ASCII range by default).
-/

/-- Constant from src/index.tsx line 8. -/
def MIN_FILTER_LENGTH : Nat := 3

/-- Constant from src/index.tsx line 9 (flush timer period, ms). -/
def FLUSH_POSTS_MS : Nat := 300

/-- Constant from src/index.tsx line 10 (retention window, ms). -/
def POST_RETENTION_MS : Int := 60 * 60 * 1000

/-- Constant from src/index.tsx line 11 (eviction timer period, ms). -/
def CLEANUP_POSTS_INTERVAL_MS : Nat := 60000

/-- A row of the `posts` table (src/index.tsx lines 32-41):
`uri TEXT PRIMARY KEY, author TEXT NOT NULL, text TEXT NOT NULL,
timestamp INTEGER NOT NULL`.  `timestamp` is epoch milliseconds of the
event's authoring time (`new Date(post.timestamp).getTime()`). -/
structure Post where
  uri : String
  author : String
  text : String
  timestamp : Int
deriving DecidableEq, Repr

/-- A `Tab` record of the tab registry (src/index.tsx lines 25-29, 44). -/
structure Tab where
  id : String
  sessionId : String
  filter : String
deriving DecidableEq, Repr

/-- ASCII case folding as done by SQLite's default `LIKE`: fold `A`-`Z`
to lower case, leave every other character unchanged. -/
def asciiLower (c : Char) : Char :=
  if 'A' ≤ c ∧ c ≤ 'Z' then Char.ofNat (c.toNat + 32) else c

/-- All suffixes of a character list, longest first, ending with `[]`. -/
def suffixes : List Char → List (List Char)
  | [] => [[]]
  | c :: s => (c :: s) :: suffixes s

/-- SQLite `LIKE` pattern matching (default, no ESCAPE): `%` matches any
sequence of characters, `_` matches exactly one character, and any other
pattern character matches one text character up to ASCII case folding.
This is the semantics of the `text LIKE ?` comparison in `queryPosts`
(src/index.tsx line 130). -/
def likeMatch : List Char → List Char → Bool
  | [], s => s.isEmpty
  | p :: ps, s =>
    if p = '%' then (suffixes s).any fun t => likeMatch ps t
    else
      match s with
      | [] => false
      | c :: s' =>
        if p = '_' then likeMatch ps s'
        else (asciiLower p == asciiLower c) && likeMatch ps s'

/-- The pattern `` `%${filter}%` `` built at src/index.tsx line 135. -/
def likePattern (filter : String) : List Char :=
  '%' :: (filter.data ++ ['%'])

/-- Descending-timestamp comparison used to model `ORDER BY timestamp DESC`. -/
def tsGe (a b : Post) : Prop := b.timestamp ≤ a.timestamp

instance : DecidableRel tsGe := fun a b =>
  inferInstanceAs (Decidable (b.timestamp ≤ a.timestamp))

/-- Model of SQLite `ORDER BY timestamp DESC` on a result set. -/
def sortDesc (l : List Post) : List Post :=
  List.insertionSort tsGe l

/-- Embeds `queryPosts` (src/index.tsx lines 127-144): with a truthy
(non-empty) filter, `SELECT * FROM posts WHERE text LIKE '%filter%'
ORDER BY timestamp DESC LIMIT 100`; with an empty filter, the same
without the `WHERE` clause. -/
def queryPosts (db : List Post) (filter : String) : List Post :=
  let rows :=
    if filter = "" then db
    else db.filter fun p => likeMatch (likePattern filter) p.text.data
  (sortDesc rows).take 100

/-- Embeds `getTotalCount` (src/index.tsx lines 146-148). -/
def getTotalCount (db : List Post) : Nat := db.length

/-- One `INSERT OR IGNORE INTO posts ...` (src/index.tsx lines 107-113):
a row whose `uri` (primary key) already exists is skipped, otherwise the
row is inserted. -/
def insertPost (db : List Post) (p : Post) : List Post :=
  if db.any fun q => q.uri == p.uri then db else db ++ [p]

/-- The bulk insert performed by one flush transaction
(src/index.tsx lines 110-117): each buffered post is inserted in order
with `INSERT OR IGNORE`. -/
def insertAll (db : List Post) (ps : List Post) : List Post :=
  ps.foldl insertPost db

/-- State of the ingest pipeline: the persisted store `db` and the
in-memory `batchBuffer` (src/index.tsx line 47). -/
structure IngestState where
  db : List Post
  buffer : List Post
deriving DecidableEq, Repr

/-- Embeds `flushPosts` (src/index.tsx lines 104-120).  Returns the new
state together with a flag recording whether `events.emit("posts.added")`
ran: an empty buffer returns immediately without emitting; otherwise all
buffered posts are bulk-inserted, the buffer is cleared, and the global
notification is emitted (unconditionally, line 119). -/
def flushPosts (s : IngestState) : IngestState × Bool :=
  if s.buffer.isEmpty then (s, false)
  else ({ db := insertAll s.db s.buffer, buffer := [] }, true)

/-- Embeds `addPost` (src/index.tsx lines 97-102): push onto the buffer;
if the buffer has reached 100 entries, flush immediately.  The flag
records whether the flush emitted the global notification. -/
def addPost (s : IngestState) (p : Post) : IngestState × Bool :=
  let s' : IngestState := { s with buffer := s.buffer ++ [p] }
  if 100 ≤ s'.buffer.length then flushPosts s' else (s', false)

/-- A sequence of `addPost` calls with no intervening timer tick. -/
def submitAll (s : IngestState) : List Post → IngestState
  | [] => s
  | p :: ps => submitAll (addPost s p).1 ps

/-- Embeds `cleanupOldPosts` (src/index.tsx lines 122-125):
`DELETE FROM posts WHERE timestamp < ?` with `cutoff = now - retention`.
A row survives exactly when its timestamp is not below the cutoff. -/
def cleanupOldPosts (db : List Post) (now : Int) : List Post :=
  let cutoff := now - POST_RETENTION_MS
  db.filter fun p => ! decide (p.timestamp < cutoff)

/-- The filter actually used for querying and rendering
(src/index.tsx lines 462, 561): the tab's raw filter when its length is
at least `MIN_FILTER_LENGTH`, the empty string otherwise. -/
def effectiveFilter (f : String) : String :=
  if MIN_FILTER_LENGTH ≤ f.length then f else ""

/-- Embeds the data computed by one `sendUpdate` pass
(src/index.tsx lines 560-563): the effective filter, the query result,
and the total count, which are what the rendered fragments depend on. -/
def sendUpdateView (db : List Post) (tab : Tab) : List Post × Nat × String :=
  let filter := effectiveFilter tab.filter
  (queryPosts db filter, getTotalCount db, filter)

/-- Outcome of the `POST /filter` route. -/
inductive FilterResp where
  | badRequest
  | notFound
  | ok
deriving DecidableEq, Repr

/-- Request body of `POST /filter`: `body.tabId` and `body.filter`,
each possibly absent. -/
structure FilterReq where
  tabId : Option String
  filter : Option String
deriving DecidableEq, Repr

/-- JavaScript truthiness on an optional string: `undefined` and `""`
are falsy. -/
def jsTruthy : Option String → Option String
  | none => none
  | some s => if s = "" then none else some s

/-- Embeds the `POST /filter` handler (src/index.tsx lines 625-643).
Returns the updated tab registry, the response, and the payload of the
`filter.updated` emission (`none` when nothing was emitted):
a falsy `tabId` is rejected 400; an id absent from the registry is
rejected 404; otherwise the tab's filter is set to `body.filter || ""`
and `filter.updated` is emitted with the tab's id. -/
def handleFilter (tabs : List Tab) (req : FilterReq) :
    List Tab × FilterResp × Option String :=
  match jsTruthy req.tabId with
  | none => (tabs, FilterResp.badRequest, none)
  | some tid =>
    match tabs.find? fun t => t.id == tid with
    | none => (tabs, FilterResp.notFound, none)
    | some _ =>
      let newFilter := req.filter.getD ""
      (tabs.map fun t => if t.id == tid then { t with filter := newFilter } else t,
        FilterResp.ok, some tid)

/-- Embeds the scoped `filter.updated` listener of one live session
(src/index.tsx lines 593-597): the session re-renders (emits on its
update queue) exactly when the payload equals its own tab id. -/
def filterListener (sessionTabId updatedTabId : String) : Bool :=
  updatedTabId == sessionTabId

/-- Global server state relevant to connection cleanup: the tab registry
and the `EventEmitter`'s listener lists for `posts.added` and
`filter.updated`.  Listener closures are identified by unique tokens
(`Nat`); a `filter.updated` listener also carries the tab id it serves. -/
structure ServerState where
  tabs : List Tab
  postsAddedListeners : List Nat
  filterUpdatedListeners : List (Nat × String)
deriving DecidableEq, Repr

/-- Embeds the abort handler of a live session
(src/index.tsx lines 602-606): `events.off("posts.added", postsListener)`,
`events.off("filter.updated", filterListener)`, `tabs.delete(tab.id)`. -/
def closeLiveSession (s : ServerState) (lid : Nat) (tabId : String) : ServerState :=
  { tabs := s.tabs.filter fun t => ! (t.id == tabId),
    postsAddedListeners := s.postsAddedListeners.filter fun x => ! (x == lid),
    filterUpdatedListeners := s.filterUpdatedListeners.filter fun q => ! (q.1 == lid) }

/-- Embeds `getOrCreateTab` (src/index.tsx lines 88-95), called only on
the live (datastar) connection path.  `freshId` stands for the
`crypto.randomUUID()` value used when `tabId` is falsy. -/
def getOrCreateTab (tabs : List Tab) (tabId : Option String)
    (sessionId freshId : String) : List Tab × Tab :=
  match jsTruthy tabId with
  | some tid =>
    match tabs.find? fun t => t.id == tid with
    | some t => (tabs, t)
    | none =>
      let tab : Tab := { id := tid, sessionId := sessionId, filter := "" }
      (tabs ++ [tab], tab)
  | none =>
    let tab : Tab := { id := freshId, sessionId := sessionId, filter := "" }
    (tabs ++ [tab], tab)

/-- Embeds the plain (non-datastar) branch of `GET /`
(src/index.tsx lines 621-622): a `Tab` object with a fresh id is
constructed for rendering the page, but the registry is left untouched. -/
def servePlainPage (tabs : List Tab) (sessionId freshId : String) : List Tab × Tab :=
  (tabs, { id := freshId, sessionId := sessionId, filter := "" })

/-- Case-sensitive character-list equality at the head (spec-side notion
used to state the claims): does `needle` occur at the start of `hay`? -/
def matchesHereCS : List Char → List Char → Bool
  | [], _ => true
  | _ :: _, [] => false
  | a :: as, b :: bs => (a == b) && matchesHereCS as bs

/-- Spec-side notion: `needle` occurs in `hay` as a case-sensitive
contiguous substring. -/
def containsCS (needle hay : List Char) : Bool :=
  (suffixes hay).any (matchesHereCS needle)

/-- ASCII-case-insensitive match at the head. -/
def matchesHereCI : List Char → List Char → Bool
  | [], _ => true
  | _ :: _, [] => false
  | a :: as, b :: bs => (asciiLower a == asciiLower b) && matchesHereCI as bs

/-- ASCII-case-insensitive contiguous substring occurrence. -/
def containsCI (needle hay : List Char) : Bool :=
  (suffixes hay).any (matchesHereCI needle)

/-! ### Helper lemmas -/

theorem anyCongr {α : Type} {l : List α} {p q : α → Bool}
    (h : ∀ x ∈ l, p x = q x) : l.any p = l.any q := by
  induction l with
  | nil => rfl
  | cons a l ih =>
    simp only [List.any_cons, h a (List.mem_cons_self a l)]
    rw [ih fun x hx => h x (List.mem_cons_of_mem a hx)]

theorem suffixes_any_isEmpty (s : List Char) :
    (suffixes s).any (fun t => t.isEmpty) = true := by
  induction s with
  | nil => rfl
  | cons c s ih => simp [suffixes, List.any_cons, ih]

/-- A wildcard-free pattern followed by a single trailing `%` matches a
text exactly when the pattern is an ASCII-case-insensitive match at the
head of the text. -/
theorem likeMatch_append_pct (f : List Char) (s : List Char)
    (hw : ∀ c ∈ f, c ≠ '%' ∧ c ≠ '_') :
    likeMatch (f ++ ['%']) s = matchesHereCI f s := by
  induction f generalizing s with
  | nil =>
    simp only [List.nil_append, matchesHereCI]
    show likeMatch ['%'] s = true
    simp only [likeMatch, if_pos rfl]
    calc (suffixes s).any (fun t => likeMatch [] t)
        = (suffixes s).any (fun t => t.isEmpty) := anyCongr fun t _ => rfl
      _ = true := suffixes_any_isEmpty s
  | cons a as ih =>
    have ha := hw a (List.mem_cons_self a as)
    have hw' : ∀ c ∈ as, c ≠ '%' ∧ c ≠ '_' :=
      fun c hc => hw c (List.mem_cons_of_mem a hc)
    cases s with
    | nil => simp only [List.cons_append, likeMatch, if_neg ha.1, matchesHereCI]
    | cons c s' =>
      simp only [List.cons_append, likeMatch, if_neg ha.1, if_neg ha.2,
        matchesHereCI, List.append_eq, ih s' hw']

/-- The pattern `%filter%` matches a text exactly when the wildcard-free
filter occurs in the text as an ASCII-case-insensitive substring. -/
theorem likeMatch_likePattern (f : String) (s : List Char)
    (hw : ∀ c ∈ f.data, c ≠ '%' ∧ c ≠ '_') :
    likeMatch (likePattern f) s = containsCI f.data s := by
  simp only [likePattern, likeMatch, if_pos rfl, containsCI]
  exact anyCongr fun t _ => likeMatch_append_pct f.data t hw

instance : IsTotal Post tsGe := ⟨fun a b => le_total b.timestamp a.timestamp⟩

instance : IsTrans Post tsGe := ⟨fun _ _ _ h1 h2 => le_trans h2 h1⟩

theorem sortDesc_perm (l : List Post) : List.Perm (sortDesc l) l :=
  List.perm_insertionSort tsGe l

theorem mem_sortDesc {p : Post} {l : List Post} : p ∈ sortDesc l ↔ p ∈ l :=
  (sortDesc_perm l).mem_iff

theorem sortDesc_pairwise (l : List Post) : (sortDesc l).Pairwise tsGe :=
  List.sorted_insertionSort tsGe l

theorem length_sortDesc (l : List Post) : (sortDesc l).length = l.length :=
  (sortDesc_perm l).length_eq

theorem mem_of_mem_queryPosts {db : List Post} {f : String} {p : Post}
    (h : p ∈ queryPosts db f) : p ∈ db := by
  unfold queryPosts at h
  by_cases hf : f = ""
  · rw [if_pos hf] at h
    exact mem_sortDesc.mp (List.mem_of_mem_take h)
  · rw [if_neg hf] at h
    exact (List.mem_filter.mp (mem_sortDesc.mp (List.mem_of_mem_take h))).1

/-! ### C1 -/

/-- C1 (counterexample): the claim says `query(filter)` returns exactly
the events whose text contains the filter as a case-sensitive substring.
On the store holding the single event `("u1","a","Hello World",1000)`,
`queryPosts` with filter `"hello"` returns that event although its text
does not contain `"hello"` case-sensitively, because SQLite `LIKE` is
ASCII-case-insensitive. -/
theorem queryPosts_caseSensitive_cex :
    queryPosts [⟨"u1", "a", "Hello World", 1000⟩] "hello"
      = [⟨"u1", "a", "Hello World", 1000⟩] ∧
    containsCS "hello".data "Hello World".data = false := by decide

/-- C1 (amended): for every stored set of events and every non-empty
filter string free of the SQLite LIKE wildcards `%` and `_`,
`query(filter)` returns exactly the events whose text contains the filter
as an ASCII-case-insensitive substring, ordered by `createdAt` descending,
capped at 100 results, and returns an empty sequence when no event
matches. -/
theorem queryPosts_substring_amended (db : List Post) (f : String) (hne : f ≠ "")
    (hw : ∀ c ∈ f.data, c ≠ '%' ∧ c ≠ '_') :
    queryPosts db f =
      (sortDesc (db.filter fun p => containsCI f.data p.text.data)).take 100 ∧
    (queryPosts db f).Pairwise tsGe ∧
    (∀ p ∈ queryPosts db f, p ∈ db ∧ containsCI f.data p.text.data = true) ∧
    (queryPosts db f).length ≤ 100 ∧
    ((db.filter fun p => containsCI f.data p.text.data).length ≤ 100 →
      ∀ p, p ∈ queryPosts db f ↔ p ∈ db ∧ containsCI f.data p.text.data = true) ∧
    ((∀ p ∈ db, containsCI f.data p.text.data = false) → queryPosts db f = []) := by
  have hfe : (db.filter fun p => likeMatch (likePattern f) p.text.data)
      = db.filter fun p => containsCI f.data p.text.data :=
    List.filter_congr fun p _ => likeMatch_likePattern f p.text.data hw
  have hq : queryPosts db f
      = (sortDesc (db.filter fun p => containsCI f.data p.text.data)).take 100 := by
    unfold queryPosts
    rw [if_neg hne, hfe]
  refine ⟨hq, ?_, ?_, ?_, ?_, ?_⟩
  · rw [hq]
    exact (sortDesc_pairwise _).sublist (List.take_sublist _ _)
  · intro p hp
    rw [hq] at hp
    have hmem := mem_sortDesc.mp (List.mem_of_mem_take hp)
    exact List.mem_filter.mp hmem
  · rw [hq]
    exact List.length_take_le _ _
  · intro hlen p
    have hlen' : (sortDesc (db.filter fun q => containsCI f.data q.text.data)).length ≤ 100 := by
      rw [length_sortDesc]
      exact hlen
    rw [hq, List.take_of_length_le hlen', mem_sortDesc, List.mem_filter]
  · intro hnone
    have hnil : (db.filter fun p => containsCI f.data p.text.data) = [] := by
      rw [List.filter_eq_nil_iff]
      intro a ha
      simp [hnone a ha]
    rw [hq, hnil]
    rfl

/-- Witness for `queryPosts_substring_amended` at a concrete store and
filter. -/
theorem queryPosts_substring_amended_witness :
    (("abc" : String) ≠ "" ∧ (∀ c ∈ ("abc" : String).data, c ≠ '%' ∧ c ≠ '_')) ∧
    queryPosts [⟨"u1", "a", "xxAbCz", 5⟩] "abc"
      = (sortDesc ([⟨"u1", "a", "xxAbCz", 5⟩].filter
          fun p => containsCI ("abc" : String).data p.text.data)).take 100 :=
  ⟨⟨by decide, by decide⟩,
    (queryPosts_substring_amended [⟨"u1", "a", "xxAbCz", 5⟩] "abc"
      (by decide) (by decide)).1⟩

/-! ### C2 -/

theorem insertPost_filter_uri {db : List Post} {u : String} {p : Post}
    (hrow : db.filter (fun q => q.uri == u) = [p]) (e : Post) :
    (insertPost db e).filter (fun q => q.uri == u) = [p] := by
  unfold insertPost
  by_cases hany : (db.any fun q => q.uri == e.uri) = true
  · rw [if_pos hany]
    exact hrow
  · rw [if_neg hany]
    have hp : p ∈ db.filter (fun q => q.uri == u) := by
      rw [hrow]
      exact List.mem_singleton.mpr rfl
    have hpdb := List.mem_filter.mp hp
    have hne : (e.uri == u) = false := by
      by_contra hcontra
      have heu : e.uri = u := by
        have := Bool.not_eq_false _ |>.mp hcontra
        exact (beq_iff_eq.mp (eq_true_of_ne_false hcontra)).symm ▸ rfl
      exact hany (List.any_eq_true.mpr
        ⟨p, hpdb.1, by rw [heu]; exact hpdb.2⟩)
    rw [List.filter_append, hrow]
    simp [List.filter, hne]

theorem insertAll_filter_uri {u : String} {p : Post} (es : List Post) (db : List Post)
    (hrow : db.filter (fun q => q.uri == u) = [p]) :
    (insertAll db es).filter (fun q => q.uri == u) = [p] := by
  induction es generalizing db with
  | nil => exact hrow
  | cons e es ih =>
    show (insertAll (insertPost db e) es).filter (fun q => q.uri == u) = [p]
    exact ih (insertPost db e) (insertPost_filter_uri hrow e)

/-- C2: if the store holds exactly one row `p` with id `u`, then a later
bulk insert whose batch contains an event `e` with the same id `u` leaves
exactly one row with that id, and that row is still `p` (same author,
text and timestamp): the duplicate is silently skipped, not errored. -/
theorem duplicate_insert_idempotent (db es : List Post) (u : String) (p e : Post)
    (hrow : db.filter (fun q => q.uri == u) = [p])
    (he : e ∈ es) (heu : e.uri = u) :
    (insertAll db es).filter (fun q => q.uri == u) = [p] :=
  insertAll_filter_uri es db hrow

/-- Witness for `duplicate_insert_idempotent`: the end-to-end scenario of
the spec (`u1` keeps its original text after a duplicate `u1` arrives). -/
theorem duplicate_insert_idempotent_witness :
    ([(⟨"u1", "alice", "hello world", 1000⟩ : Post)].filter
        (fun q => q.uri == "u1") = [⟨"u1", "alice", "hello world", 1000⟩] ∧
      (⟨"u1", "bob", "duplicate", 3000⟩ : Post) ∈
        [(⟨"u2", "carol", "goodbye", 2000⟩ : Post), ⟨"u1", "bob", "duplicate", 3000⟩] ∧
      (⟨"u1", "bob", "duplicate", 3000⟩ : Post).uri = "u1") ∧
    (insertAll [⟨"u1", "alice", "hello world", 1000⟩]
        [⟨"u2", "carol", "goodbye", 2000⟩, ⟨"u1", "bob", "duplicate", 3000⟩]).filter
      (fun q => q.uri == "u1") = [⟨"u1", "alice", "hello world", 1000⟩] :=
  ⟨⟨by decide, by decide, by decide⟩,
    duplicate_insert_idempotent
      [⟨"u1", "alice", "hello world", 1000⟩]
      [⟨"u2", "carol", "goodbye", 2000⟩, ⟨"u1", "bob", "duplicate", 3000⟩]
      "u1" ⟨"u1", "alice", "hello world", 1000⟩ ⟨"u1", "bob", "duplicate", 3000⟩
      (by decide) (by decide) (by decide)⟩

/-! ### C3 -/

/-- C3 (counterexample): flushing a queue that holds only a duplicate of
an already-stored id inserts no new row (the store is unchanged) yet the
global `posts.added` notification is still published, so "published iff
at least one new row was inserted" fails. -/
theorem flush_notification_cex :
    (flushPosts ⟨[⟨"u1", "a", "hello", 1000⟩], [⟨"u1", "b", "dup", 2000⟩]⟩).2 = true ∧
    (flushPosts ⟨[⟨"u1", "a", "hello", 1000⟩], [⟨"u1", "b", "dup", 2000⟩]⟩).1.db
      = [⟨"u1", "a", "hello", 1000⟩] := by decide

/-- C3 (amended): the global `posts.added` notification is published if
and only if the flushed queue was non-empty: a flush of an empty queue
publishes nothing, and a flush of a non-empty queue always publishes,
even when every queued event is a duplicate of an already-stored id and
no new row is inserted. -/
theorem flush_notification_iff (s : IngestState) :
    (flushPosts s).2 = true ↔ s.buffer ≠ [] := by
  unfold flushPosts
  cases hb : s.buffer <;> simp [hb]

/-! ### C4 -/

theorem addPost_small (db b : List Post) (p : Post) (h : b.length + 1 < 100) :
    addPost ⟨db, b⟩ p = (⟨db, b ++ [p]⟩, false) := by
  have hc : ¬ 100 ≤ ((b : List Post) ++ [p]).length := by
    rw [List.length_append, List.length_singleton]
    omega
  simp only [addPost]
  rw [if_neg hc]

theorem addPost_flush (db b : List Post) (p : Post) (h : b.length + 1 = 100) :
    addPost ⟨db, b⟩ p = (⟨insertAll db (b ++ [p]), []⟩, true) := by
  have hc : 100 ≤ ((b : List Post) ++ [p]).length := by
    rw [List.length_append, List.length_singleton]
    omega
  have hne : ¬ (((b : List Post) ++ [p]).isEmpty = true) := by
    simp
  simp only [addPost]
  rw [if_pos hc]
  simp only [flushPosts]
  rw [if_neg hne]

theorem submitAll_small (db ps : List Post) : ∀ b : List Post,
    b.length + ps.length < 100 →
    submitAll ⟨db, b⟩ ps = ⟨db, b ++ ps⟩ := by
  induction ps with
  | nil =>
    intro b _
    simp [submitAll]
  | cons p rest ih =>
    intro b h
    rw [List.length_cons] at h
    show submitAll (addPost ⟨db, b⟩ p).1 rest = _
    rw [addPost_small db b p (by omega)]
    show submitAll ⟨db, b ++ [p]⟩ rest = _
    rw [ih (b ++ [p]) (by rw [List.length_append, List.length_singleton]; omega)]
    rw [List.append_assoc]
    rfl

theorem submitAll_reach_100 (db ps : List Post) : ∀ b : List Post,
    ps ≠ [] → b.length + ps.length = 100 →
    submitAll ⟨db, b⟩ ps = ⟨insertAll db (b ++ ps), []⟩ := by
  induction ps with
  | nil =>
    intro b hne _
    exact absurd rfl hne
  | cons p rest ih =>
    intro b _ h
    rw [List.length_cons] at h
    cases rest with
    | nil =>
      show submitAll (addPost ⟨db, b⟩ p).1 [] = _
      rw [addPost_flush db b p (by simpa using h)]
      rfl
    | cons r rest' =>
      have hrl : 1 ≤ (r :: rest').length := by
        rw [List.length_cons]
        omega
      show submitAll (addPost ⟨db, b⟩ p).1 (r :: rest') = _
      rw [addPost_small db b p (by omega)]
      show submitAll ⟨db, b ++ [p]⟩ (r :: rest') = _
      rw [ih (b ++ [p]) (by simp)
        (by rw [List.length_append, List.length_singleton]; omega)]
      rw [List.append_assoc]
      rfl

/-- C4: starting from an empty queue, any run of `addPost` calls shorter
than 100 leaves the store untouched with all events still buffered, and
the call that brings the queue to exactly 100 flushes all 100 events into
the store at once and clears the queue. -/
theorem ingest_batch_threshold (db ps : List Post) (h : ps.length = 100) :
    (∀ n, n < 100 → submitAll ⟨db, []⟩ (ps.take n) = ⟨db, ps.take n⟩) ∧
    submitAll ⟨db, []⟩ ps = ⟨insertAll db ps, []⟩ := by
  constructor
  · intro n hn
    have := submitAll_small db (ps.take n) []
    simp only [List.length_nil, Nat.zero_add, List.nil_append] at this
    exact this (by rw [List.length_take]; omega)
  · have := submitAll_reach_100 db ps []
      (by intro hc; rw [hc] at h; exact absurd h (by decide))
      (by simpa using h)
    simpa using this

/-- Concrete posts used by witnesses. -/
def samplePost (n : Nat) : Post := ⟨toString n, "a", "text", (n : Int)⟩

/-- Witness for `ingest_batch_threshold` on a concrete batch of 100
distinct posts. -/
theorem ingest_batch_threshold_witness :
    ((List.range 100).map samplePost).length = 100 ∧
    submitAll ⟨[], []⟩ ((List.range 100).map samplePost)
      = ⟨insertAll [] ((List.range 100).map samplePost), []⟩ :=
  ⟨by simp, (ingest_batch_threshold [] ((List.range 100).map samplePost) (by simp)).2⟩

/-! ### C5 -/

/-- C5: a filter string shorter than `MIN_FILTER_LENGTH` (3) is treated
exactly like the empty filter by the query-and-render pass, whatever its
content, while the `POST /filter` handler still stores the raw string
verbatim on the tab record. -/
theorem filter_below_min_length (db : List Post) (tabs : List Tab)
    (i sid f : String) (t0 : Tab) (hf : f.length < MIN_FILTER_LENGTH)
    (hfind : (tabs.find? fun t => t.id == i) = some t0) (hi : i ≠ "") :
    sendUpdateView db ⟨i, sid, f⟩ = sendUpdateView db ⟨i, sid, ""⟩ ∧
    (handleFilter tabs ⟨some i, some f⟩).1
      = tabs.map fun t => if t.id == i then { t with filter := f } else t := by
  constructor
  · have he : effectiveFilter f = "" := by
      unfold effectiveFilter
      unfold MIN_FILTER_LENGTH at hf
      rw [if_neg (by unfold MIN_FILTER_LENGTH; omega)]
    have he0 : effectiveFilter "" = "" := by decide
    simp [sendUpdateView, he, he0]
  · simp only [handleFilter, jsTruthy, if_neg hi, hfind, Option.getD_some]

/-- Witness for `filter_below_min_length` with the two-character filter
`"ab"` on a registered tab. -/
theorem filter_below_min_length_witness :
    (("ab" : String).length < MIN_FILTER_LENGTH ∧
      ([(⟨"t1", "s1", "old"⟩ : Tab)].find? fun t => t.id == "t1")
        = some ⟨"t1", "s1", "old"⟩ ∧
      ("t1" : String) ≠ "") ∧
    sendUpdateView [] ⟨"t1", "s1", "ab"⟩ = sendUpdateView [] ⟨"t1", "s1", ""⟩ ∧
    (handleFilter [⟨"t1", "s1", "old"⟩] ⟨some "t1", some "ab"⟩).1
      = [(⟨"t1", "s1", "old"⟩ : Tab)].map
          fun t => if t.id == "t1" then { t with filter := "ab" } else t :=
  ⟨⟨by decide, by decide, by decide⟩,
    (filter_below_min_length [] [⟨"t1", "s1", "old"⟩] "t1" "s1" "ab"
      ⟨"t1", "s1", "old"⟩ (by decide) (by decide) (by decide)).1,
    (filter_below_min_length [] [⟨"t1", "s1", "old"⟩] "t1" "s1" "ab"
      ⟨"t1", "s1", "old"⟩ (by decide) (by decide) (by decide)).2⟩

/-! ### C6 -/

/-- C6: eviction with `cutoff = now - 1 hour` removes exactly the events
whose timestamp is strictly before the cutoff: such an event is gone from
the store and from every subsequent `queryPosts` result, while an event
at or after the cutoff is in the store after eviction exactly when it was
before. -/
theorem evict_older_than_cutoff (db : List Post) (now : Int) (f : String) (p : Post) :
    (p.timestamp < now - POST_RETENTION_MS →
      p ∉ cleanupOldPosts db now ∧ p ∉ queryPosts (cleanupOldPosts db now) f) ∧
    (now - POST_RETENTION_MS ≤ p.timestamp →
      (p ∈ cleanupOldPosts db now ↔ p ∈ db)) := by
  constructor
  · intro hold
    have hnotin : p ∉ cleanupOldPosts db now := by
      intro hmem
      unfold cleanupOldPosts at hmem
      have hkeep := (List.mem_filter.mp hmem).2
      simp only [Bool.not_eq_eq_eq_not, Bool.not_true, decide_eq_false_iff_not] at hkeep
      exact hkeep hold
    exact ⟨hnotin, fun hq => hnotin (mem_of_mem_queryPosts hq)⟩
  · intro hge
    unfold cleanupOldPosts
    rw [List.mem_filter]
    constructor
    · exact fun h => h.1
    · intro h
      refine ⟨h, ?_⟩
      simp only [Bool.not_eq_eq_eq_not, Bool.not_true, decide_eq_false_iff_not]
      omega

/-- Witness for `evict_older_than_cutoff`: with `now = 4000000` the
cutoff is `400000`; the event at `t = 100` is evicted and absent from the
query, the event at `t = 500000` survives. -/
theorem evict_older_than_cutoff_witness :
    ((⟨"u1", "a", "old post", 100⟩ : Post).timestamp < 4000000 - POST_RETENTION_MS ∧
      ((⟨"u1", "a", "old post", 100⟩ : Post)
          ∉ cleanupOldPosts [⟨"u1", "a", "old post", 100⟩, ⟨"u2", "b", "new post", 500000⟩] 4000000 ∧
        (⟨"u1", "a", "old post", 100⟩ : Post)
          ∉ queryPosts (cleanupOldPosts [⟨"u1", "a", "old post", 100⟩, ⟨"u2", "b", "new post", 500000⟩] 4000000) "")) ∧
    (4000000 - POST_RETENTION_MS ≤ (⟨"u2", "b", "new post", 500000⟩ : Post).timestamp ∧
      ((⟨"u2", "b", "new post", 500000⟩ : Post)
          ∈ cleanupOldPosts [⟨"u1", "a", "old post", 100⟩, ⟨"u2", "b", "new post", 500000⟩] 4000000 ↔
        (⟨"u2", "b", "new post", 500000⟩ : Post)
          ∈ [(⟨"u1", "a", "old post", 100⟩ : Post), ⟨"u2", "b", "new post", 500000⟩])) :=
  ⟨⟨by decide,
      (evict_older_than_cutoff [⟨"u1", "a", "old post", 100⟩, ⟨"u2", "b", "new post", 500000⟩]
        4000000 "" ⟨"u1", "a", "old post", 100⟩).1 (by decide)⟩,
    ⟨by decide,
      (evict_older_than_cutoff [⟨"u1", "a", "old post", 100⟩, ⟨"u2", "b", "new post", 500000⟩]
        4000000 "" ⟨"u2", "b", "new post", 500000⟩).2 (by decide)⟩⟩

/-! ### C7 -/

/-- C7: the `POST /filter` handler rejects a missing (or empty, hence
falsy) tab id as a 400 bad request and an unregistered tab id as a 404
not-found; in every non-ok outcome the tab registry is unchanged and no
notification is emitted; on success it sets the named tab's filter to the
submitted string and emits the scoped `filter.updated` notification
carrying exactly that tab id. -/
theorem filter_update_contract (tabs : List Tab) (req : FilterReq) :
    ((req.tabId = none ∨ req.tabId = some "") →
      handleFilter tabs req = (tabs, FilterResp.badRequest, none)) ∧
    (∀ tid, req.tabId = some tid → tid ≠ "" → (∀ t ∈ tabs, t.id ≠ tid) →
      handleFilter tabs req = (tabs, FilterResp.notFound, none)) ∧
    ((handleFilter tabs req).2.1 ≠ FilterResp.ok →
      (handleFilter tabs req).1 = tabs ∧ (handleFilter tabs req).2.2 = none) ∧
    (∀ tid, req.tabId = some tid → tid ≠ "" → (∃ t0, t0 ∈ tabs ∧ t0.id = tid) →
      handleFilter tabs req =
        (tabs.map fun t => if t.id == tid then { t with filter := req.filter.getD "" } else t,
          FilterResp.ok, some tid)) := by
  refine ⟨?_, ?_, ?_, ?_⟩
  · rintro (h | h) <;> simp [handleFilter, jsTruthy, h]
  · intro tid htid hne hnot
    have hfind : (tabs.find? fun t => t.id == tid) = none := by
      rw [List.find?_eq_none]
      intro t ht
      simpa using hnot t ht
    simp [handleFilter, jsTruthy, htid, if_neg hne, hfind]
  · intro hnok
    cases hj : jsTruthy req.tabId with
    | none => simp [handleFilter, hj]
    | some tid =>
      cases hfind : tabs.find? fun t => t.id == tid with
      | none => simp [handleFilter, hj, hfind]
      | some t0 =>
        exact absurd (by simp [handleFilter, hj, hfind]) hnok
  · intro tid htid hne hex
    have hsome : (tabs.find? fun t => t.id == tid).isSome := by
      rw [List.find?_isSome]
      obtain ⟨t0, ht0, hid⟩ := hex
      exact ⟨t0, ht0, by simp [hid]⟩
    obtain ⟨t0, hfind⟩ := Option.isSome_iff_exists.mp hsome
    simp [handleFilter, jsTruthy, htid, if_neg hne, hfind]

/-- Witness for `filter_update_contract` exercising all three outcomes on
a registry holding the single tab `"t1"`. -/
theorem filter_update_contract_witness :
    handleFilter [⟨"t1", "s1", ""⟩] ⟨none, some "xyz"⟩
      = ([⟨"t1", "s1", ""⟩], FilterResp.badRequest, none) ∧
    handleFilter [⟨"t1", "s1", ""⟩] ⟨some "t2", some "xyz"⟩
      = ([⟨"t1", "s1", ""⟩], FilterResp.notFound, none) ∧
    handleFilter [⟨"t1", "s1", ""⟩] ⟨some "t1", some "xyz"⟩
      = ([⟨"t1", "s1", "xyz"⟩], FilterResp.ok, some "t1") := by
  refine ⟨?_, ?_, ?_⟩
  · exact (filter_update_contract [⟨"t1", "s1", ""⟩] ⟨none, some "xyz"⟩).1 (Or.inl rfl)
  · exact (filter_update_contract [⟨"t1", "s1", ""⟩] ⟨some "t2", some "xyz"⟩).2.1
      "t2" rfl (by decide) (by decide)
  · have h := (filter_update_contract [⟨"t1", "s1", ""⟩] ⟨some "t1", some "xyz"⟩).2.2.2
      "t1" rfl (by decide) ⟨⟨"t1", "s1", ""⟩, by decide, rfl⟩
    exact h.trans (by decide)

/-! ### C8 -/

/-- C8: a scoped `filter.updated` notification carrying tab id `a` never
makes the listener of a session subscribed under a different tab id `b`
re-render, and the only tab id whose listener reacts is exactly `a`. -/
theorem scoped_notification_isolation (a b : String) (h : a ≠ b) :
    filterListener b a = false ∧ (∀ tid, filterListener tid a = true ↔ tid = a) := by
  constructor
  · unfold filterListener
    exact beq_eq_false_iff_ne.mpr h
  · intro tid
    unfold filterListener
    rw [beq_iff_eq]
    exact eq_comm

/-- Witness for `scoped_notification_isolation` at two distinct view ids. -/
theorem scoped_notification_isolation_witness :
    ("viewA" : String) ≠ "viewB" ∧
    filterListener "viewB" "viewA" = false ∧
    filterListener "viewA" "viewA" = true :=
  ⟨by decide,
    (scoped_notification_isolation "viewA" "viewB" (by decide)).1,
    ((scoped_notification_isolation "viewA" "viewB" (by decide)).2 "viewA").mpr rfl⟩

/-! ### C9 -/

/-- C9: after the abort handler of a live session runs (transition to
Closed), the session's tab id is absent from the tab registry and the
session's two listeners are absent from both of the event emitter's
subscriber lists, so no further notification is processed for it. -/
theorem cleanup_on_close (s : ServerState) (lid : Nat) (tabId : String) :
    (∀ t ∈ (closeLiveSession s lid tabId).tabs, t.id ≠ tabId) ∧
    lid ∉ (closeLiveSession s lid tabId).postsAddedListeners ∧
    (∀ q ∈ (closeLiveSession s lid tabId).filterUpdatedListeners, q.1 ≠ lid) := by
  refine ⟨?_, ?_, ?_⟩
  · intro t ht
    simp only [closeLiveSession] at ht
    have := (List.mem_filter.mp ht).2
    simpa using this
  · intro hmem
    simp only [closeLiveSession] at hmem
    have := (List.mem_filter.mp hmem).2
    simp at this
  · intro q hq
    simp only [closeLiveSession] at hq
    have := (List.mem_filter.mp hq).2
    simpa using this

/-- Witness for `cleanup_on_close` on a concrete server state with two
sessions, closing the one with listener token 1 and tab `"t1"`. -/
theorem cleanup_on_close_witness :
    (∀ t ∈ (closeLiveSession
        ⟨[⟨"t1", "s1", ""⟩, ⟨"t2", "s1", ""⟩], [1, 2], [(1, "t1"), (2, "t2")]⟩
        1 "t1").tabs, t.id ≠ "t1") ∧
    1 ∉ (closeLiveSession
        ⟨[⟨"t1", "s1", ""⟩, ⟨"t2", "s1", ""⟩], [1, 2], [(1, "t1"), (2, "t2")]⟩
        1 "t1").postsAddedListeners ∧
    (∀ q ∈ (closeLiveSession
        ⟨[⟨"t1", "s1", ""⟩, ⟨"t2", "s1", ""⟩], [1, 2], [(1, "t1"), (2, "t2")]⟩
        1 "t1").filterUpdatedListeners, q.1 ≠ 1) :=
  cleanup_on_close
    ⟨[⟨"t1", "s1", ""⟩, ⟨"t2", "s1", ""⟩], [1, 2], [(1, "t1"), (2, "t2")]⟩ 1 "t1"

/-! ### C10 -/

/-- C10: serving a plain page builds a tab with a fresh id without
registering it, so the registry is unchanged; a `POST /filter` naming
that fresh id is rejected not-found with no registry change and no
notification; once a live connection registers the id through
`getOrCreateTab`, the same request succeeds. -/
theorem plain_page_not_registered (tabs : List Tab) (sid fid f : String)
    (hfresh : ∀ t ∈ tabs, t.id ≠ fid) (hne : fid ≠ "") :
    (servePlainPage tabs sid fid).1 = tabs ∧
    (servePlainPage tabs sid fid).2.id = fid ∧
    handleFilter tabs ⟨some fid, some f⟩ = (tabs, FilterResp.notFound, none) ∧
    (handleFilter (getOrCreateTab tabs (some fid) sid fid).1 ⟨some fid, some f⟩).2.1
      = FilterResp.ok := by
  have hfind : (tabs.find? fun t => t.id == fid) = none := by
    rw [List.find?_eq_none]
    intro t ht
    simpa using hfresh t ht
  refine ⟨rfl, rfl, ?_, ?_⟩
  · simp [handleFilter, jsTruthy, if_neg hne, hfind]
  · have hreg : (getOrCreateTab tabs (some fid) sid fid).1
        = tabs ++ [⟨fid, sid, ""⟩] := by
      simp [getOrCreateTab, jsTruthy, if_neg hne, hfind]
    rw [hreg]
    have hfind2 : ((tabs ++ [(⟨fid, sid, ""⟩ : Tab)]).find? fun t => t.id == fid)
        = some ⟨fid, sid, ""⟩ := by
      rw [List.find?_append, hfind]
      simp [List.find?]
    simp [handleFilter, jsTruthy, if_neg hne, hfind2]

/-- Witness for `plain_page_not_registered` on an empty registry and the
fresh id `"tab-1"`. -/
theorem plain_page_not_registered_witness :
    ((∀ t ∈ ([] : List Tab), t.id ≠ "tab-1") ∧ ("tab-1" : String) ≠ "") ∧
    (servePlainPage [] "s1" "tab-1").1 = [] ∧
    handleFilter [] ⟨some "tab-1", some "xyz"⟩ = ([], FilterResp.notFound, none) ∧
    (handleFilter (getOrCreateTab [] (some "tab-1") "s1" "tab-1").1
      ⟨some "tab-1", some "xyz"⟩).2.1 = FilterResp.ok := by
  refine ⟨⟨by simp, by decide⟩, ?_, ?_, ?_⟩
  · exact (plain_page_not_registered [] "s1" "tab-1" "xyz" (by simp) (by decide)).1
  · exact (plain_page_not_registered [] "s1" "tab-1" "xyz" (by simp) (by decide)).2.2.1
  · exact (plain_page_not_registered [] "s1" "tab-1" "xyz" (by simp) (by decide)).2.2.2
